import Mathlib

/-!
Verification of the mean-squared-error metric adapter
(src/molflux/metrics/regression/mean_squared_error.py).

The adapter's own logic (`MeanSquaredError._score`) is embedded directly:
the deprecated `root` flag with its string sentinel default, the
deprecation warning, the capability branch on
`ROOT_MEAN_SQUARED_ERROR_AVAILABLE`, and the single-entry result mapping.

The numeric routines the adapter delegates to
(`sklearn.metrics.mean_squared_error`,
`sklearn.metrics.root_mean_squared_error`, and the legacy
`mean_squared_error(..., squared=...)` form) are external library code whose
source is not part of the repository; they are modelled from the spec:
mean squared error is the weighted average of squared per-sample errors,
computed per output target, then aggregated across targets according to the
`multioutput` mode; root mean squared error takes the square root per target
before aggregation; malformed shapes yield an input-validation error.

Numbers are exact rationals, moving to the reals where a square root is
needed.
-/

namespace Molflux

/-- A metric result value: a scalar, or one value per output target. -/
inductive MetricValue (α : Type) where
  | scalar (x : α)
  | vector (xs : List α)
deriving DecidableEq

/-- Map a function over the value(s) of a metric result. -/
def MetricValue.map {α β : Type} (f : α → β) : MetricValue α → MetricValue β
  | .scalar x => .scalar (f x)
  | .vector xs => .vector (xs.map f)

/-- The `multioutput` argument: one of the two named aggregation modes, or an
explicit sequence of per-target weights. -/
inductive Multioutput where
  | rawValues
  | uniformAverage
  | weights (ws : List ℚ)
deriving DecidableEq

/-- The Python value domain of the `root` keyword: a boolean, or the string
sentinel `"deprecated"` that is its declared default. -/
inductive RootArg where
  | deprecatedStr
  | bool (b : Bool)
deriving DecidableEq

/-- The boolean the adapter actually uses: the sentinel is swapped for the
actual default value `False` (line 135 of the source). -/
def rootBool : RootArg → Bool
  | .deprecatedStr => false
  | .bool b => b

/-- A batch of samples, each a row of numeric target values (`y_true` /
`y_pred` as a 2-d array; scalar inputs are rows of width 1). -/
abbrev Matrix := List (List ℚ)

/-- Squaring, written as in `(y_true - y_pred) ** 2`. -/
def sq (x : ℚ) : ℚ := x * x

/-- A list of scalar samples, reshaped to an n-by-1 matrix as the numeric
library does for 1-d input. -/
def scalarMatrix (xs : List ℚ) : Matrix := xs.map (fun x => [x])

/-- Modelled from the spec: `numpy.average` over rationals — the weighted
average, i.e. the weight-and-value products summed and divided by the total
weight; with no weights, the plain mean. -/
def npAverage (xs : List ℚ) (w : Option (List ℚ)) : ℚ :=
  match w with
  | none => xs.sum / (xs.length : ℚ)
  | some ws => (List.zipWith (fun a b => a * b) ws xs).sum / ws.sum

/-- Modelled from the spec: `numpy.average` over reals (weights stay
rational, as they come from the `multioutput` argument). -/
noncomputable def npAverageR (xs : List ℝ) (w : Option (List ℚ)) : ℝ :=
  match w with
  | none => xs.sum / (xs.length : ℝ)
  | some ws => (List.zipWith (fun (a : ℚ) (b : ℝ) => (a : ℝ) * b) ws xs).sum / ((ws.sum : ℚ) : ℝ)

/-- The number of output targets of a batch (the width of its rows). -/
def nOutputs (m : Matrix) : Nat := (m.headD []).length

/-- Every row has the declared width (a numpy 2-d array is rectangular). -/
def isRectangular (m : Matrix) : Bool := m.all (fun r => r.length == nOutputs m)

/-- The per-sample squared errors `(y_true - y_pred) ** 2`, elementwise. -/
def squaredErrors (yTrue yPred : Matrix) : Matrix :=
  List.zipWith (fun t p => List.zipWith (fun a b => sq (a - b)) t p) yTrue yPred

/-- Column `j` of a batch (one output target across all samples). -/
def column (m : Matrix) (j : Nat) : List ℚ := m.map (fun r => r.getD j 0)

/-- Modelled from the spec: the per-target errors
`np.average((y_true - y_pred) ** 2, axis=0, weights=sample_weight)` —
for each output target, the weighted average over samples of the squared
errors in that column. -/
def outputErrors (yTrue yPred : Matrix) (sw : Option (List ℚ)) : List ℚ :=
  (List.range (nOutputs yTrue)).map
    (fun j => npAverage (column (squaredErrors yTrue yPred) j) sw)

/-- Modelled from the spec: the input-validation checks the delegated numeric
routines perform before computing (consistent lengths, rectangular arrays of
equal width, at least one sample, and a per-target weight for each target);
a violated check is a validation error. -/
def checkShapes (yTrue yPred : Matrix) (sw : Option (List ℚ)) (mo : Multioutput) :
    Except String Unit :=
  if yTrue.length != yPred.length then
    .error "Found input variables with inconsistent numbers of samples"
  else if !(isRectangular yTrue && isRectangular yPred) then
    .error "setting an array element with a sequence"
  else if yTrue.length == 0 then
    .error "Found array with 0 sample(s) while a minimum of 1 is required"
  else if nOutputs yTrue != nOutputs yPred then
    .error "y_true and y_pred have different number of output"
  else if (match sw with | some w => w.length != yTrue.length | none => false) then
    .error "Found input variables with inconsistent numbers of samples"
  else
    match mo with
    | .weights ws =>
        if ws.length != nOutputs yTrue then
          .error "There must be equally many custom weights as outputs"
        else .ok ()
    | _ => .ok ()

/-- Aggregation of per-target errors according to the `multioutput` mode,
over rationals. -/
def aggregateQ (es : List ℚ) (mo : Multioutput) : MetricValue ℚ :=
  match mo with
  | .rawValues => .vector es
  | .uniformAverage => .scalar (npAverage es none)
  | .weights ws => .scalar (npAverage es (some ws))

/-- Aggregation of per-target errors according to the `multioutput` mode,
over reals. -/
noncomputable def aggregateR (es : List ℝ) (mo : Multioutput) : MetricValue ℝ :=
  match mo with
  | .rawValues => .vector es
  | .uniformAverage => .scalar (npAverageR es none)
  | .weights ws => .scalar (npAverageR es (some ws))

/-- Modelled from the spec: `sklearn.metrics.mean_squared_error` — validate
shapes, compute the per-target weighted averages of squared errors, then
aggregate across targets according to `multioutput`. -/
def mean_squared_error (yTrue yPred : Matrix) (sw : Option (List ℚ))
    (mo : Multioutput) : Except String (MetricValue ℚ) :=
  match checkShapes yTrue yPred sw mo with
  | .error e => .error e
  | .ok _ => .ok (aggregateQ (outputErrors yTrue yPred sw) mo)

/-- Modelled from the spec: `sklearn.metrics.root_mean_squared_error` — the
square root is taken of each per-target error before aggregation across
targets. -/
noncomputable def root_mean_squared_error (yTrue yPred : Matrix)
    (sw : Option (List ℚ)) (mo : Multioutput) : Except String (MetricValue ℝ) :=
  match checkShapes yTrue yPred sw mo with
  | .error e => .error e
  | .ok _ =>
      .ok (aggregateR ((outputErrors yTrue yPred sw).map
        (fun e => Real.sqrt ((e : ℚ) : ℝ))) mo)

/-- Modelled from the spec: the legacy combined-flag form
`sklearn.metrics.mean_squared_error(..., squared=...)` — the per-target
errors, square-rooted when `squared` is false, then aggregated. -/
noncomputable def mean_squared_error_squaredFlag (yTrue yPred : Matrix)
    (sw : Option (List ℚ)) (mo : Multioutput) (squared : Bool) :
    Except String (MetricValue ℝ) :=
  match checkShapes yTrue yPred sw mo with
  | .error e => .error e
  | .ok _ =>
      let es0 : List ℝ := (outputErrors yTrue yPred sw).map (fun e => ((e : ℚ) : ℝ))
      .ok (aggregateR (if squared then es0 else es0.map Real.sqrt) mo)

/-- The capability branch of `_score` (source lines 138-162): with the
dedicated routine available, dispatch on the root flag between it and plain
`mean_squared_error`; otherwise use the legacy combined flag
`squared = not root`. `yTrue` is the references, `yPred` the predictions, as
in the source's keyword arguments. -/
noncomputable def computeForRoot (avail : Bool) (yTrue yPred : Matrix)
    (sw : Option (List ℚ)) (mo : Multioutput) (rootB : Bool) :
    Except String (MetricValue ℝ) :=
  if avail then
    if rootB then
      root_mean_squared_error yTrue yPred sw mo
    else
      Except.map (MetricValue.map (fun q => ((q : ℚ) : ℝ)))
        (mean_squared_error yTrue yPred sw mo)
  else
    mean_squared_error_squaredFlag yTrue yPred sw mo (!rootB)

/-- The observable outcome of one `_score` call: whether the deprecation
warning was emitted (it happens before the numeric call, so it is observable
even when that call fails), and the returned mapping or the propagated
error. -/
structure ScoreOutcome where
  warned : Bool
  result : Except String (List (String × MetricValue ℝ))

/-- The adapter `MeanSquaredError._score` (source lines 112-164):
`root` defaults to the sentinel string; a deprecation warning is emitted iff
`root != "deprecated"`; the sentinel is then replaced by `False`; the
computation is delegated with `y_true=references, y_pred=predictions`; the
result is returned under the metric's tag as the single entry of a dict. -/
noncomputable def score (avail : Bool) (tag : String)
    (predictions references : Matrix) (sample_weight : Option (List ℚ))
    (multioutput : Multioutput) (root : RootArg) : ScoreOutcome :=
  { warned := decide (root ≠ RootArg.deprecatedStr),
    result := Except.map (fun v => [(tag, v)])
      (computeForRoot avail references predictions sample_weight multioutput
        (rootBool root)) }

/-- A call of `_score` with the `root` keyword omitted: the declared default
is the sentinel string. -/
noncomputable def scoreDefault (avail : Bool) (tag : String)
    (predictions references : Matrix) (sample_weight : Option (List ℚ))
    (multioutput : Multioutput) : ScoreOutcome :=
  score avail tag predictions references sample_weight multioutput
    RootArg.deprecatedStr

/-- Two consecutive invocations of `_score` with identical arguments (the
adapter holds no state besides its static tag, so the second call sees
exactly the same inputs as the first). -/
noncomputable def computeTwice (avail : Bool) (tag : String)
    (predictions references : Matrix) (sample_weight : Option (List ℚ))
    (multioutput : Multioutput) (root : RootArg) : ScoreOutcome × ScoreOutcome :=
  (score avail tag predictions references sample_weight multioutput root,
   score avail tag predictions references sample_weight multioutput root)

/-- Every value carried by a metric result is non-negative. -/
def MetricValue.Nonneg : MetricValue ℝ → Prop
  | .scalar x => 0 ≤ x
  | .vector xs => ∀ x ∈ xs, 0 ≤ x

/-- Every value carried by a metric result is zero. -/
def MetricValue.IsZero : MetricValue ℝ → Prop
  | .scalar x => x = 0
  | .vector xs => ∀ x ∈ xs, x = 0

/-- The mode-independent shape checks: consistent lengths, rectangular
arrays of equal width, at least one sample, and a matching sample-weight
length. -/
def validBase (yTrue yPred : Matrix) (sw : Option (List ℚ)) : Bool :=
  (yTrue.length == yPred.length) &&
  (isRectangular yTrue && isRectangular yPred) &&
  (yTrue.length != 0) &&
  (nOutputs yTrue == nOutputs yPred) &&
  (match sw with | some w => w.length == yTrue.length | none => true)

/-- All checks of `checkShapes` as one decidable condition. -/
def validInput (yTrue yPred : Matrix) (sw : Option (List ℚ))
    (mo : Multioutput) : Bool :=
  validBase yTrue yPred sw &&
  (match mo with | .weights ws => ws.length == nOutputs yTrue | _ => true)

theorem checkShapes_eq_ok {yTrue yPred : Matrix} {sw : Option (List ℚ)}
    {mo : Multioutput} (h : validInput yTrue yPred sw mo = true) :
    checkShapes yTrue yPred sw mo = .ok () := by
  simp only [validInput, validBase, Bool.and_eq_true, beq_iff_eq, bne_iff_ne,
    ne_eq] at h
  obtain ⟨⟨⟨⟨⟨h1, h2, h2'⟩, h3⟩, h4⟩, h5⟩, h6⟩ := h
  have c1 : (yTrue.length != yPred.length) = false := by simp [h1]
  have c2 : (isRectangular yTrue && isRectangular yPred) = true := by simp [h2, h2']
  have c3 : (yTrue.length == 0) = false := by simp [h3]
  have c4 : (nOutputs yTrue != nOutputs yPred) = false := by simp [h4]
  cases sw with
  | none =>
      cases mo with
      | weights ws =>
          simp only [beq_iff_eq] at h6
          have c6 : (ws.length != nOutputs yTrue) = false := by simp [h6]
          simp [checkShapes, c1, c2, c3, c4, c6]
      | rawValues => simp [checkShapes, c1, c2, c3, c4]
      | uniformAverage => simp [checkShapes, c1, c2, c3, c4]
  | some w =>
      simp only [beq_iff_eq] at h5
      have c5 : (w.length != yTrue.length) = false := by simp [h5]
      cases mo with
      | weights ws =>
          simp only [beq_iff_eq] at h6
          have c6 : (ws.length != nOutputs yTrue) = false := by simp [h6]
          simp [checkShapes, c1, c2, c3, c4, c5, c6]
      | rawValues => simp [checkShapes, c1, c2, c3, c4, c5]
      | uniformAverage => simp [checkShapes, c1, c2, c3, c4, c5]

theorem list_sum_ratCast (l : List ℚ) :
    ((l.sum : ℚ) : ℝ) = (l.map (fun q => ((q : ℚ) : ℝ))).sum := by
  induction l with
  | nil => simp
  | cons a t ih => simp [ih]

theorem zipWith_mul_cast (ws es : List ℚ) :
    (List.zipWith (fun (a : ℚ) (b : ℝ) => (a : ℝ) * b) ws
        (es.map (fun q => ((q : ℚ) : ℝ)))).sum
      = (((List.zipWith (fun a b => a * b) ws es).sum : ℚ) : ℝ) := by
  induction ws generalizing es with
  | nil => simp
  | cons a t ih =>
      cases es with
      | nil => simp
      | cons b u => simp [ih u]

theorem npAverage_cast (es : List ℚ) (w : Option (List ℚ)) :
    ((npAverage es w : ℚ) : ℝ) = npAverageR (es.map (fun q => ((q : ℚ) : ℝ))) w := by
  cases w with
  | none =>
      simp only [npAverage, npAverageR, List.length_map]
      push_cast [list_sum_ratCast]
      ring_nf
  | some ws =>
      simp only [npAverage, npAverageR]
      rw [zipWith_mul_cast]
      push_cast
      ring_nf

theorem length_scalarMatrix (xs : List ℚ) :
    (scalarMatrix xs).length = xs.length := by
  simp [scalarMatrix]

theorem nOutputs_scalarMatrix (xs : List ℚ) (h : xs ≠ []) :
    nOutputs (scalarMatrix xs) = 1 := by
  cases xs with
  | nil => simp at h
  | cons a t => simp [scalarMatrix, nOutputs]

theorem isRectangular_scalarMatrix (xs : List ℚ) :
    isRectangular (scalarMatrix xs) = true := by
  cases xs with
  | nil => simp [scalarMatrix, isRectangular]
  | cons a t => simp [scalarMatrix, isRectangular, nOutputs]

theorem column_zero_squaredErrors_scalar (xs ys : List ℚ) :
    column (squaredErrors (scalarMatrix xs) (scalarMatrix ys)) 0
      = List.zipWith (fun a b => sq (a - b)) xs ys := by
  induction xs generalizing ys with
  | nil => simp [column, squaredErrors, scalarMatrix]
  | cons a t ih =>
      cases ys with
      | nil => simp [column, squaredErrors, scalarMatrix]
      | cons b u =>
          simpa [column, squaredErrors, scalarMatrix] using ih u

theorem outputErrors_scalarMatrix (xs ys : List ℚ) (sw : Option (List ℚ))
    (h : xs ≠ []) :
    outputErrors (scalarMatrix xs) (scalarMatrix ys) sw
      = [npAverage (List.zipWith (fun a b => sq (a - b)) xs ys) sw] := by
  simp [outputErrors, nOutputs_scalarMatrix xs h, List.range_succ,
    column_zero_squaredErrors_scalar]

theorem aggregateQ_cast (es : List ℚ) (mo : Multioutput) :
    MetricValue.map (fun q => ((q : ℚ) : ℝ)) (aggregateQ es mo)
      = aggregateR (es.map (fun q => ((q : ℚ) : ℝ))) mo := by
  cases mo <;> simp [aggregateQ, aggregateR, MetricValue.map, npAverage_cast]

theorem computeForRoot_avail_irrelevant (yTrue yPred : Matrix)
    (sw : Option (List ℚ)) (mo : Multioutput) (b : Bool) :
    computeForRoot true yTrue yPred sw mo b
      = computeForRoot false yTrue yPred sw mo b := by
  cases b with
  | true =>
      simp only [computeForRoot, if_true, Bool.not_true,
        root_mean_squared_error, mean_squared_error_squaredFlag]
      cases e : checkShapes yTrue yPred sw mo with
      | error s => rfl
      | ok u => simp [List.map_map, Function.comp_def]
  | false =>
      simp only [computeForRoot, if_true, Bool.not_false,
        mean_squared_error, mean_squared_error_squaredFlag]
      cases e : checkShapes yTrue yPred sw mo with
      | error s => rfl
      | ok u => simp [Except.map, aggregateQ_cast]

/-- C6: capability detection selects equivalent strategies, not divergent
semantics: for every input and every root flag, the dedicated-routine path
(`ROOT_MEAN_SQUARED_ERROR_AVAILABLE` true) and the legacy combined-flag path
(capability absent, `squared = not root`) produce the same outcome. -/
theorem C6_capability_paths_equivalent (tag : String)
    (predictions references : Matrix) (sw : Option (List ℚ))
    (mo : Multioutput) (root : RootArg) :
    score true tag predictions references sw mo root
      = score false tag predictions references sw mo root := by
  unfold score
  rw [computeForRoot_avail_irrelevant]

/-- C8: repeated invocations of `_score` with identical arguments produce
identical outcomes; the adapter holds no mutable state between calls, so
the first and second result of a double invocation coincide. -/
theorem C8_repeated_calls_identical (avail : Bool) (tag : String)
    (predictions references : Matrix) (sw : Option (List ℚ))
    (mo : Multioutput) (root : RootArg) :
    (computeTwice avail tag predictions references sw mo root).1
      = (computeTwice avail tag predictions references sw mo root).2 := rfl

/-- C9: the unset sentinel for `root` is the literal string `"deprecated"`,
so a caller explicitly passing that value is indistinguishable from one who
omitted the argument: no deprecation warning is emitted and plain (non-root)
mean squared error is computed. -/
theorem C9_sentinel_value_indistinguishable_from_omission (avail : Bool)
    (tag : String) (predictions references : Matrix) (sw : Option (List ℚ))
    (mo : Multioutput) :
    score avail tag predictions references sw mo RootArg.deprecatedStr
        = scoreDefault avail tag predictions references sw mo
    ∧ (score avail tag predictions references sw mo RootArg.deprecatedStr).warned
        = false
    ∧ (score avail tag predictions references sw mo RootArg.deprecatedStr).result
        = (score avail tag predictions references sw mo (RootArg.bool false)).result :=
  ⟨rfl, by simp [score], rfl⟩

/-- C4: the deprecation warning is emitted iff `root` is passed with a value
other than the sentinel (whether true or false); the warning is non-fatal:
the result is still exactly the computation selected by the flag's truth
value; and with `root` omitted no warning is emitted and the plain
mean-squared-error computation is performed. -/
theorem C4_root_warning_iff_explicit (avail : Bool) (tag : String)
    (predictions references : Matrix) (sw : Option (List ℚ))
    (mo : Multioutput) :
    (∀ root : RootArg,
      ((score avail tag predictions references sw mo root).warned = true
        ↔ root ≠ RootArg.deprecatedStr))
    ∧ (∀ b : Bool,
        (score avail tag predictions references sw mo (RootArg.bool b)).result
          = Except.map (fun v => [(tag, v)])
              (computeForRoot avail references predictions sw mo b))
    ∧ (scoreDefault avail tag predictions references sw mo).warned = false
    ∧ (scoreDefault avail tag predictions references sw mo).result
        = Except.map (fun v => [(tag, v)])
            (computeForRoot avail references predictions sw mo false) := by
  refine ⟨?_, fun b => rfl, ?_, rfl⟩
  · intro root
    simp [score]
  · simp [scoreDefault, score]

/-- C7: for every input on which `_score` succeeds, the returned mapping has
exactly one entry, keyed by the metric's own tag. -/
theorem C7_result_is_single_entry (avail : Bool) (tag : String)
    (predictions references : Matrix) (sw : Option (List ℚ)) (mo : Multioutput)
    (root : RootArg) (l : List (String × MetricValue ℝ))
    (h : (score avail tag predictions references sw mo root).result = Except.ok l) :
    ∃ v, l = [(tag, v)] := by
  unfold score at h
  cases e : computeForRoot avail references predictions sw mo (rootBool root) with
  | error s =>
      rw [e] at h
      simp [Except.map] at h
  | ok v =>
      rw [e] at h
      simp only [Except.map, Except.ok.injEq] at h
      exact ⟨v, h.symm⟩

/-- Witness for C7 at a concrete successful call. -/
theorem C7_result_is_single_entry_witness :
    ∃ v, [("mean_squared_error", MetricValue.scalar (((0 : ℚ) : ℝ)))]
      = [("mean_squared_error", v)] := by
  have h : (score true "mean_squared_error" [[1]] [[1]] none
      Multioutput.uniformAverage RootArg.deprecatedStr).result
      = Except.ok [("mean_squared_error", MetricValue.scalar (((0 : ℚ) : ℝ)))] := by
    simp [score, computeForRoot, mean_squared_error, checkShapes, isRectangular,
      nOutputs, outputErrors, column, squaredErrors, npAverage, aggregateQ,
      rootBool, Except.map, MetricValue.map, sq]
  exact C7_result_is_single_entry true "mean_squared_error" [[1]] [[1]] none
    Multioutput.uniformAverage RootArg.deprecatedStr _ h

/-- C1: for equal-length scalar inputs with no sample weights and default
settings (`multioutput` uniform, `root` omitted), `_score` returns the mean
of the squared per-sample differences, under either capability setting. -/
theorem C1_mse_is_mean_of_squared_differences (avail : Bool) (tag : String)
    (predictions references : List ℚ)
    (hlen : references.length = predictions.length) (hne : references ≠ []) :
    score avail tag (scalarMatrix predictions) (scalarMatrix references) none
      Multioutput.uniformAverage RootArg.deprecatedStr
    = { warned := false,
        result := Except.ok [(tag, MetricValue.scalar
          ((((List.zipWith (fun a b => sq (a - b)) references predictions).sum
              / (references.length : ℚ) : ℚ) : ℝ)))] } := by
  have hpne : predictions ≠ [] := by
    intro hp
    apply hne
    subst hp
    simpa using List.length_eq_zero.mp hlen
  have hv : validInput (scalarMatrix references) (scalarMatrix predictions) none
      Multioutput.uniformAverage = true := by
    simp [validInput, validBase, length_scalarMatrix, hlen,
      isRectangular_scalarMatrix, nOutputs_scalarMatrix _ hne,
      nOutputs_scalarMatrix _ hpne, hne, hpne]
  have hcs := checkShapes_eq_ok hv
  have he := outputErrors_scalarMatrix references predictions none hne
  have hnp : npAverage (List.zipWith (fun a b => sq (a - b)) references predictions)
      none = (List.zipWith (fun a b => sq (a - b)) references predictions).sum
        / (references.length : ℚ) := by
    simp [npAverage, List.length_zipWith, hlen]
  cases avail with
  | true =>
      simp [score, computeForRoot, rootBool, mean_squared_error, hcs, he, hnp,
        aggregateQ, npAverage, Except.map, MetricValue.map, hlen, min_self]
  | false =>
      simp [score, computeForRoot, rootBool, mean_squared_error_squaredFlag,
        hcs, he, hnp, aggregateR, npAverageR, Except.map, hlen, min_self]

/-- Witness for C1 at the documented example: predictions = [2.5, 0, 2, 8],
references = [3, -0.5, 2, 7] give mean squared error 3/8 = 0.375. -/
theorem C1_mse_is_mean_of_squared_differences_witness :
    score true "mean_squared_error" (scalarMatrix [5/2, 0, 2, 8])
      (scalarMatrix [3, -1/2, 2, 7]) none Multioutput.uniformAverage
      RootArg.deprecatedStr
    = { warned := false,
        result := Except.ok [("mean_squared_error",
          MetricValue.scalar (((3 : ℚ)/8 : ℚ) : ℝ))] } := by
  have h := C1_mse_is_mean_of_squared_differences true "mean_squared_error"
    [5/2, 0, 2, 8] [3, -1/2, 2, 7] (by decide) (by decide)
  rw [h]
  norm_num [sq]

theorem score_checkShapes_error (avail : Bool) (tag : String)
    (predictions references : Matrix) (sw : Option (List ℚ)) (mo : Multioutput)
    (root : RootArg) (msg : String)
    (hc : checkShapes references predictions sw mo = .error msg) :
    (score avail tag predictions references sw mo root).result
      = Except.error msg := by
  unfold score computeForRoot
  cases avail with
  | true =>
      cases rootBool root <;>
        simp [root_mean_squared_error, mean_squared_error, hc, Except.map]
  | false =>
      cases rootBool root <;>
        simp [mean_squared_error_squaredFlag, hc, Except.map]

/-- C5: malformed shapes — mismatched-length predictions and references, or
equal-length inputs whose rows have inconsistent target counts — make the
delegated numeric routine fail with its input-validation error, and `_score`
propagates exactly that error to the caller — same error value, no local
validation, translation or wrapping — for every capability setting,
weighting, aggregation mode and root flag. -/
theorem C5_malformed_shapes_propagate_error (avail : Bool) (tag : String) :
    (∀ (predictions references : Matrix) (sw : Option (List ℚ))
        (mo : Multioutput) (root : RootArg),
      references.length ≠ predictions.length →
      (score avail tag predictions references sw mo root).result
        = Except.error "Found input variables with inconsistent numbers of samples"
      ∧ mean_squared_error references predictions sw mo
        = Except.error "Found input variables with inconsistent numbers of samples")
    ∧ (∀ (predictions references : Matrix) (sw : Option (List ℚ))
        (mo : Multioutput) (root : RootArg),
      references.length = predictions.length →
      isRectangular references = true →
      isRectangular predictions = true →
      references ≠ [] →
      nOutputs references ≠ nOutputs predictions →
      (score avail tag predictions references sw mo root).result
        = Except.error "y_true and y_pred have different number of output"
      ∧ mean_squared_error references predictions sw mo
        = Except.error "y_true and y_pred have different number of output") := by
  constructor
  · intro predictions references sw mo root h
    have hc : checkShapes references predictions sw mo
        = .error "Found input variables with inconsistent numbers of samples" := by
      unfold checkShapes
      have hb : (references.length != predictions.length) = true := by
        simpa using h
      rw [hb]
      simp
    exact ⟨score_checkShapes_error avail tag predictions references sw mo root _ hc,
      by simp [mean_squared_error, hc]⟩
  · intro predictions references sw mo root hlen hr1 hr2 hne hno
    have hc : checkShapes references predictions sw mo
        = .error "y_true and y_pred have different number of output" := by
      unfold checkShapes
      have c1 : (references.length != predictions.length) = false := by
        simp [hlen]
      have c2 : (isRectangular references && isRectangular predictions) = true := by
        simp [hr1, hr2]
      have c3 : (references.length == 0) = false := by
        simp [List.length_eq_zero, hne]
      have c4 : (nOutputs references != nOutputs predictions) = true := by
        simpa using hno
      rw [c1, c2, c3, c4]
      simp
    exact ⟨score_checkShapes_error avail tag predictions references sw mo root _ hc,
      by simp [mean_squared_error, hc]⟩

/-- Witness for C5: predictions of length 2 against references of length 1
(mismatched lengths), and single-sample inputs with one target against two
targets (inconsistent target counts). -/
theorem C5_malformed_shapes_propagate_error_witness :
    ((score true "mean_squared_error" (scalarMatrix [1, 2]) (scalarMatrix [1])
        none Multioutput.uniformAverage RootArg.deprecatedStr).result
      = Except.error "Found input variables with inconsistent numbers of samples"
    ∧ mean_squared_error (scalarMatrix [1]) (scalarMatrix [1, 2]) none
        Multioutput.uniformAverage
      = Except.error "Found input variables with inconsistent numbers of samples")
    ∧ ((score true "mean_squared_error" [[1, 2]] [[1]]
        none Multioutput.uniformAverage RootArg.deprecatedStr).result
      = Except.error "y_true and y_pred have different number of output"
    ∧ mean_squared_error [[1]] [[1, 2]] none Multioutput.uniformAverage
      = Except.error "y_true and y_pred have different number of output") :=
  ⟨(C5_malformed_shapes_propagate_error true "mean_squared_error").1
      (scalarMatrix [1, 2]) (scalarMatrix [1]) none Multioutput.uniformAverage
      RootArg.deprecatedStr (by decide),
    (C5_malformed_shapes_propagate_error true "mean_squared_error").2
      [[1, 2]] [[1]] none Multioutput.uniformAverage RootArg.deprecatedStr
      (by decide) (by decide) (by decide) (by decide) (by decide)⟩

theorem outputErrors_length (yTrue yPred : Matrix) (sw : Option (List ℚ)) :
    (outputErrors yTrue yPred sw).length = nOutputs yTrue := by
  simp [outputErrors]

theorem outputErrors_getD (yTrue yPred : Matrix) (sw : Option (List ℚ))
    (j : Nat) (hj : j < nOutputs yTrue) :
    (outputErrors yTrue yPred sw).getD j 0
      = npAverage (column (squaredErrors yTrue yPred) j) sw := by
  unfold outputErrors
  rw [List.getD_eq_getElem?_getD, List.getElem?_map]
  simp [List.getElem?_range, hj]

theorem zipWith_mul_scale (c : ℚ) (ws xs : List ℚ) :
    (List.zipWith (fun a b => a * b) (ws.map (fun w => c * w)) xs).sum
      = c * (List.zipWith (fun a b => a * b) ws xs).sum := by
  induction ws generalizing xs with
  | nil => simp
  | cons a t ih =>
      cases xs with
      | nil => simp
      | cons b u =>
          simp only [List.map_cons, List.zipWith_cons_cons, List.sum_cons, ih u]
          ring

theorem npAverage_scale_weights (c : ℚ) (hc : c ≠ 0) (ws xs : List ℚ) :
    npAverage xs (some (ws.map (fun w => c * w))) = npAverage xs (some ws) := by
  show (List.zipWith (fun a b => a * b) (ws.map (fun w => c * w)) xs).sum
      / (ws.map (fun w => c * w)).sum
    = (List.zipWith (fun a b => a * b) ws xs).sum / ws.sum
  have h2 : (ws.map (fun w => c * w)).sum = c * ws.sum := by
    induction ws with
    | nil => simp
    | cons a t ih =>
        simp only [List.map_cons, List.sum_cons, ih]
        ring
  rw [zipWith_mul_scale, h2, mul_div_mul_left _ _ hc]

/-- C2 (amended): under the selected `multioutput` mode, "raw_values"
returns one error value per target column (the weighted average of that
column's squared errors) with no aggregation; "uniform_average" returns the
unweighted mean across targets; an explicit weight sequence of length equal
to the number of targets returns the weighted mean of the per-target errors
normalized by the total weight — so the weights need not sum to 1, and
scaling all weights by a nonzero constant leaves the result unchanged. -/
theorem C2_multioutput_aggregation (avail : Bool) (tag : String)
    (predictions references : Matrix) (sw : Option (List ℚ))
    (hv : validBase references predictions sw = true) :
    ((score avail tag predictions references sw Multioutput.rawValues
        RootArg.deprecatedStr).result
      = Except.ok [(tag, MetricValue.vector
          ((outputErrors references predictions sw).map (fun q => ((q : ℚ) : ℝ))))]
      ∧ (outputErrors references predictions sw).length = nOutputs references
      ∧ ∀ j, j < nOutputs references →
          (outputErrors references predictions sw).getD j 0
            = npAverage (column (squaredErrors references predictions) j) sw)
    ∧ (score avail tag predictions references sw Multioutput.uniformAverage
        RootArg.deprecatedStr).result
      = Except.ok [(tag, MetricValue.scalar
          ((((outputErrors references predictions sw).sum
              / (nOutputs references : ℚ) : ℚ) : ℝ)))]
    ∧ (∀ ws : List ℚ, ws.length = nOutputs references →
        (score avail tag predictions references sw (Multioutput.weights ws)
          RootArg.deprecatedStr).result
        = Except.ok [(tag, MetricValue.scalar
            ((((List.zipWith (fun a b => a * b) ws
                  (outputErrors references predictions sw)).sum
                / ws.sum : ℚ) : ℝ)))])
    ∧ (∀ (ws : List ℚ) (c : ℚ), ws.length = nOutputs references → c ≠ 0 →
        (score avail tag predictions references sw
            (Multioutput.weights (ws.map (fun w => c * w)))
            RootArg.deprecatedStr).result
          = (score avail tag predictions references sw (Multioutput.weights ws)
              RootArg.deprecatedStr).result) := by
  have hswap : ∀ (mo : Multioutput),
      (score avail tag predictions references sw mo RootArg.deprecatedStr).result
        = (score true tag predictions references sw mo RootArg.deprecatedStr).result := by
    intro mo
    cases avail with
    | true => rfl
    | false =>
        unfold score
        rw [computeForRoot_avail_irrelevant]
  have hres : ∀ mo : Multioutput, validInput references predictions sw mo = true →
      (score true tag predictions references sw mo RootArg.deprecatedStr).result
        = Except.ok [(tag, MetricValue.map (fun q => ((q : ℚ) : ℝ))
            (aggregateQ (outputErrors references predictions sw) mo))] := by
    intro mo hvmo
    simp [score, computeForRoot, rootBool, mean_squared_error,
      checkShapes_eq_ok hvmo, Except.map]
  refine ⟨⟨?_, outputErrors_length _ _ _, fun j hj => outputErrors_getD _ _ _ j hj⟩,
    ?_, ?_, ?_⟩
  · rw [hswap, hres Multioutput.rawValues (by simp [validInput, hv])]
    simp [aggregateQ, MetricValue.map]
  · rw [hswap, hres Multioutput.uniformAverage (by simp [validInput, hv])]
    simp [aggregateQ, MetricValue.map, npAverage, outputErrors_length]
  · intro ws hws
    rw [hswap, hres (Multioutput.weights ws) (by simp [validInput, hv, hws])]
    simp [aggregateQ, MetricValue.map, npAverage]
  · intro ws c hws hc
    rw [hswap, hswap,
      hres (Multioutput.weights (ws.map (fun w => c * w)))
        (by simp [validInput, hv, hws]),
      hres (Multioutput.weights ws) (by simp [validInput, hv, hws])]
    simp [aggregateQ, npAverage_scale_weights c hc]

/-- Counterexample to C2 as stated: the explicit-weights result does not
scale with the weights' total. With per-target errors [1, 9], output weights
[1, 1] give score 5, and doubling every weight to [2, 2] still gives 5
(the weighted mean is normalized by the total weight), not 2 times 5. -/
theorem C2_weights_scale_counterexample :
    (score true "mean_squared_error" [[0, 0]] [[1, 3]] none
        (Multioutput.weights [2, 2]) RootArg.deprecatedStr).result
      = Except.ok [("mean_squared_error", MetricValue.scalar (((5 : ℚ) : ℝ)))]
    ∧ (score true "mean_squared_error" [[0, 0]] [[1, 3]] none
        (Multioutput.weights [1, 1]) RootArg.deprecatedStr).result
      = Except.ok [("mean_squared_error", MetricValue.scalar (((5 : ℚ) : ℝ)))]
    ∧ ((5 : ℚ) : ℝ) ≠ 2 * ((5 : ℚ) : ℝ) := by
  refine ⟨?_, ?_, by norm_num⟩ <;>
    · simp [score, computeForRoot, mean_squared_error, checkShapes, isRectangular,
        nOutputs, outputErrors, column, squaredErrors, npAverage, aggregateQ,
        rootBool, Except.map, MetricValue.map, sq, List.range_succ]
      norm_num

/-- Witness for C2 (amended) at the documented multi-output example. -/
theorem C2_multioutput_aggregation_witness :
    (score true "mean_squared_error" [[0, 2], [-1, 2], [8, -5]]
        [[1/2, 1], [-1, 1], [7, -6]] none Multioutput.uniformAverage
        RootArg.deprecatedStr).result
      = Except.ok [("mean_squared_error", MetricValue.scalar
          ((((outputErrors [[1/2, 1], [-1, 1], [7, -6]]
                [[0, 2], [-1, 2], [8, -5]] none).sum
              / (nOutputs [[1/2, 1], [-1, 1], [7, -6]] : ℚ) : ℚ) : ℝ)))] :=
  (C2_multioutput_aggregation true "mean_squared_error"
    [[0, 2], [-1, 2], [8, -5]] [[1/2, 1], [-1, 1], [7, -6]] none
    (by decide)).2.1

theorem score_avail_result (avail : Bool) (tag : String)
    (predictions references : Matrix) (sw : Option (List ℚ))
    (mo : Multioutput) (root : RootArg) :
    (score avail tag predictions references sw mo root).result
      = (score true tag predictions references sw mo root).result := by
  cases avail with
  | true => rfl
  | false =>
      unfold score
      rw [computeForRoot_avail_irrelevant]

theorem score_nonroot_result (tag : String) (predictions references : Matrix)
    (sw : Option (List ℚ)) (mo : Multioutput) (root : RootArg)
    (hroot : rootBool root = false)
    (hv : validInput references predictions sw mo = true) :
    (score true tag predictions references sw mo root).result
      = Except.ok [(tag, MetricValue.map (fun q => ((q : ℚ) : ℝ))
          (aggregateQ (outputErrors references predictions sw) mo))] := by
  simp [score, computeForRoot, hroot, mean_squared_error,
    checkShapes_eq_ok hv, Except.map]

theorem score_root_result (tag : String) (predictions references : Matrix)
    (sw : Option (List ℚ)) (mo : Multioutput) (root : RootArg)
    (hroot : rootBool root = true)
    (hv : validInput references predictions sw mo = true) :
    (score true tag predictions references sw mo root).result
      = Except.ok [(tag, aggregateR ((outputErrors references predictions sw).map
          (fun e => Real.sqrt ((e : ℚ) : ℝ))) mo)] := by
  simp [score, computeForRoot, hroot, root_mean_squared_error,
    checkShapes_eq_ok hv, Except.map]

theorem npAverageR_singleton (x : ℝ) : npAverageR [x] none = x := by
  simp [npAverageR]

theorem npAverage_singleton (x : ℚ) : npAverage [x] none = x := by
  simp [npAverage]

/-- C3: the `root=true` score is the square root of the `root=false` score,
applied per target before aggregation: for single-output input the root
score is exactly the square root of the plain score; in "raw_values" mode
the root result is the elementwise square root of the plain result; and in
every mode the root score is the aggregation of the square-rooted
per-target errors (square root taken before aggregating). -/
theorem C3_root_is_sqrt_of_mse (avail : Bool) (tag : String) :
    (∀ (predictions references : List ℚ) (sw : Option (List ℚ)),
      validInput (scalarMatrix references) (scalarMatrix predictions) sw
          Multioutput.uniformAverage = true →
      ∃ m : ℝ,
        (score avail tag (scalarMatrix predictions) (scalarMatrix references)
            sw Multioutput.uniformAverage (RootArg.bool false)).result
          = Except.ok [(tag, MetricValue.scalar m)]
        ∧ (score avail tag (scalarMatrix predictions) (scalarMatrix references)
            sw Multioutput.uniformAverage (RootArg.bool true)).result
          = Except.ok [(tag, MetricValue.scalar (Real.sqrt m))])
    ∧ (∀ (predictions references : Matrix) (sw : Option (List ℚ)),
      validInput references predictions sw Multioutput.rawValues = true →
      (score avail tag predictions references sw Multioutput.rawValues
          (RootArg.bool true)).result
        = Except.map
            (fun l => l.map (fun p => (p.1, MetricValue.map Real.sqrt p.2)))
            (score avail tag predictions references sw Multioutput.rawValues
              (RootArg.bool false)).result)
    ∧ (∀ (predictions references : Matrix) (sw : Option (List ℚ))
        (mo : Multioutput),
      validInput references predictions sw mo = true →
      (score avail tag predictions references sw mo (RootArg.bool true)).result
        = Except.ok [(tag,
            aggregateR ((outputErrors references predictions sw).map
              (fun e => Real.sqrt ((e : ℚ) : ℝ))) mo)]) := by
  refine ⟨?_, ?_, ?_⟩
  · intro predictions references sw hv
    have hne : references ≠ [] := by
      simp only [validInput, validBase, Bool.and_eq_true, bne_iff_ne, ne_eq] at hv
      intro h
      exact hv.1.1.1.2 (by simp [h, scalarMatrix])
    have he := outputErrors_scalarMatrix references predictions sw hne
    refine ⟨((npAverage (List.zipWith (fun a b => sq (a - b)) references
      predictions) sw : ℚ) : ℝ), ?_, ?_⟩
    · rw [score_avail_result,
        score_nonroot_result tag _ _ sw _ (RootArg.bool false) rfl hv, he]
      simp [aggregateQ, MetricValue.map, npAverage_singleton]
    · rw [score_avail_result,
        score_root_result tag _ _ sw _ (RootArg.bool true) rfl hv, he]
      simp [aggregateR, npAverageR_singleton]
  · intro predictions references sw hv
    rw [score_avail_result avail tag predictions references sw
        Multioutput.rawValues (RootArg.bool true),
      score_avail_result avail tag predictions references sw
        Multioutput.rawValues (RootArg.bool false),
      score_root_result tag _ _ sw _ (RootArg.bool true) rfl hv,
      score_nonroot_result tag _ _ sw _ (RootArg.bool false) rfl hv]
    simp [aggregateR, aggregateQ, MetricValue.map, Except.map, List.map_map,
      Function.comp_def]
  · intro predictions references sw mo hv
    rw [score_avail_result,
      score_root_result tag _ _ sw _ (RootArg.bool true) rfl hv]

/-- Witness for C3: predictions = [0], references = [2] give mean squared
error 4 and root mean squared error sqrt 4. -/
theorem C3_root_is_sqrt_of_mse_witness :
    ∃ m : ℝ,
      (score true "mean_squared_error" (scalarMatrix [0]) (scalarMatrix [2])
          none Multioutput.uniformAverage (RootArg.bool false)).result
        = Except.ok [("mean_squared_error", MetricValue.scalar m)]
      ∧ (score true "mean_squared_error" (scalarMatrix [0]) (scalarMatrix [2])
          none Multioutput.uniformAverage (RootArg.bool true)).result
        = Except.ok [("mean_squared_error", MetricValue.scalar (Real.sqrt m))] :=
  (C3_root_is_sqrt_of_mse true "mean_squared_error").1 [0] [2] none (by decide)

theorem getD_nonneg (r : List ℚ) (j : Nat) (h : ∀ y ∈ r, 0 ≤ y) :
    0 ≤ r.getD j 0 := by
  induction r generalizing j with
  | nil => simp [List.getD]
  | cons a t ih =>
      cases j with
      | zero => exact h a (by simp)
      | succ k => exact ih k (fun y hy => h y (by simp [hy]))

theorem getD_zero (r : List ℚ) (j : Nat) (h : ∀ y ∈ r, y = 0) :
    r.getD j 0 = 0 := by
  induction r generalizing j with
  | nil => simp [List.getD]
  | cons a t ih =>
      cases j with
      | zero => exact h a (by simp)
      | succ k => exact ih k (fun y hy => h y (by simp [hy]))

theorem zipWith_sq_nonneg (t p : List ℚ) :
    ∀ y ∈ List.zipWith (fun a b => sq (a - b)) t p, 0 ≤ y := by
  induction t generalizing p with
  | nil => simp
  | cons a u ih =>
      cases p with
      | nil => simp
      | cons b v =>
          intro y hy
          simp only [List.zipWith_cons_cons, List.mem_cons] at hy
          rcases hy with h | h
          · rw [h]
            exact mul_self_nonneg _
          · exact ih v y h

theorem squaredErrors_rows_nonneg (yTrue yPred : Matrix) :
    ∀ r ∈ squaredErrors yTrue yPred, ∀ y ∈ r, 0 ≤ y := by
  induction yTrue generalizing yPred with
  | nil => simp [squaredErrors]
  | cons t ts ih =>
      cases yPred with
      | nil => simp [squaredErrors]
      | cons p ps =>
          intro r hr
          simp only [squaredErrors, List.zipWith_cons_cons, List.mem_cons] at hr
          rcases hr with h | h
          · rw [h]
            exact zipWith_sq_nonneg t p
          · exact ih ps r h

theorem zipWith_sq_self_zero (t : List ℚ) :
    ∀ y ∈ List.zipWith (fun a b => sq (a - b)) t t, y = 0 := by
  induction t with
  | nil => simp
  | cons a u ih =>
      intro y hy
      simp only [List.zipWith_cons_cons, List.mem_cons] at hy
      rcases hy with h | h
      · rw [h]
        simp [sq]
      · exact ih y h

theorem squaredErrors_self_rows_zero (P : Matrix) :
    ∀ r ∈ squaredErrors P P, ∀ y ∈ r, y = 0 := by
  induction P with
  | nil => simp [squaredErrors]
  | cons t ts ih =>
      intro r hr
      simp only [squaredErrors, List.zipWith_cons_cons, List.mem_cons] at hr
      rcases hr with h | h
      · rw [h]
        exact zipWith_sq_self_zero t
      · exact ih r h

theorem zipWith_mul_nonneg (ws xs : List ℚ) (hw : ∀ a ∈ ws, 0 ≤ a)
    (hx : ∀ x ∈ xs, 0 ≤ x) :
    ∀ y ∈ List.zipWith (fun a b => a * b) ws xs, 0 ≤ y := by
  induction ws generalizing xs with
  | nil => simp
  | cons a t ih =>
      cases xs with
      | nil => simp
      | cons b u =>
          intro y hy
          simp only [List.zipWith_cons_cons, List.mem_cons] at hy
          rcases hy with h | h
          · rw [h]
            exact mul_nonneg (hw a (by simp)) (hx b (by simp))
          · exact ih u (fun z hz => hw z (by simp [hz]))
              (fun z hz => hx z (by simp [hz])) y h

theorem zipWith_mul_zero_right (ws xs : List ℚ) (hx : ∀ x ∈ xs, x = 0) :
    (List.zipWith (fun a b => a * b) ws xs).sum = 0 := by
  induction ws generalizing xs with
  | nil => simp
  | cons a t ih =>
      cases xs with
      | nil => simp
      | cons b u =>
          have hb : b = 0 := hx b (by simp)
          simp [hb, ih u (fun z hz => hx z (by simp [hz]))]

theorem npAverage_nonneg (xs : List ℚ) (w : Option (List ℚ))
    (hxs : ∀ x ∈ xs, 0 ≤ x)
    (hw : ∀ ws, w = some ws → ∀ a ∈ ws, 0 ≤ a) : 0 ≤ npAverage xs w := by
  cases w with
  | none => exact div_nonneg (List.sum_nonneg hxs) (Nat.cast_nonneg _)
  | some ws =>
      exact div_nonneg
        (List.sum_nonneg (zipWith_mul_nonneg ws xs (hw ws rfl) hxs))
        (List.sum_nonneg (hw ws rfl))

theorem npAverage_zero (xs : List ℚ) (w : Option (List ℚ))
    (hxs : ∀ x ∈ xs, x = 0) : npAverage xs w = 0 := by
  cases w with
  | none => simp [npAverage, List.sum_eq_zero hxs]
  | some ws => simp [npAverage, zipWith_mul_zero_right ws xs hxs]

theorem zipWith_mul_nonnegR (ws : List ℚ) (xs : List ℝ)
    (hw : ∀ a ∈ ws, 0 ≤ a) (hx : ∀ x ∈ xs, 0 ≤ x) :
    ∀ y ∈ List.zipWith (fun (a : ℚ) (b : ℝ) => (a : ℝ) * b) ws xs, 0 ≤ y := by
  induction ws generalizing xs with
  | nil => simp
  | cons a t ih =>
      cases xs with
      | nil => simp
      | cons b u =>
          intro y hy
          simp only [List.zipWith_cons_cons, List.mem_cons] at hy
          rcases hy with h | h
          · rw [h]
            exact mul_nonneg (by exact_mod_cast hw a (by simp)) (hx b (by simp))
          · exact ih u (fun z hz => hw z (by simp [hz]))
              (fun z hz => hx z (by simp [hz])) y h

theorem zipWith_mul_zero_rightR (ws : List ℚ) (xs : List ℝ)
    (hx : ∀ x ∈ xs, x = 0) :
    (List.zipWith (fun (a : ℚ) (b : ℝ) => (a : ℝ) * b) ws xs).sum = 0 := by
  induction ws generalizing xs with
  | nil => simp
  | cons a t ih =>
      cases xs with
      | nil => simp
      | cons b u =>
          have hb : b = 0 := hx b (by simp)
          simp [hb, ih u (fun z hz => hx z (by simp [hz]))]

theorem npAverageR_nonneg (xs : List ℝ) (w : Option (List ℚ))
    (hxs : ∀ x ∈ xs, 0 ≤ x)
    (hw : ∀ ws, w = some ws → ∀ a ∈ ws, 0 ≤ a) : 0 ≤ npAverageR xs w := by
  cases w with
  | none => exact div_nonneg (List.sum_nonneg hxs) (Nat.cast_nonneg _)
  | some ws =>
      refine div_nonneg
        (List.sum_nonneg (zipWith_mul_nonnegR ws xs (hw ws rfl) hxs)) ?_
      exact_mod_cast List.sum_nonneg (hw ws rfl)

theorem npAverageR_zero (xs : List ℝ) (w : Option (List ℚ))
    (hxs : ∀ x ∈ xs, x = 0) : npAverageR xs w = 0 := by
  cases w with
  | none => simp [npAverageR, List.sum_eq_zero hxs]
  | some ws => simp [npAverageR, zipWith_mul_zero_rightR ws xs hxs]

theorem outputErrors_nonneg (yTrue yPred : Matrix) (sw : Option (List ℚ))
    (hsw : ∀ w, sw = some w → ∀ a ∈ w, 0 ≤ a) :
    ∀ e ∈ outputErrors yTrue yPred sw, 0 ≤ e := by
  intro e he
  simp only [outputErrors, List.mem_map] at he
  obtain ⟨j, _, rfl⟩ := he
  refine npAverage_nonneg _ _ ?_ hsw
  intro x hx
  simp only [column, List.mem_map] at hx
  obtain ⟨r, hr, rfl⟩ := hx
  exact getD_nonneg r j (squaredErrors_rows_nonneg yTrue yPred r hr)

theorem outputErrors_self_zero (P : Matrix) (sw : Option (List ℚ)) :
    ∀ e ∈ outputErrors P P sw, e = 0 := by
  intro e he
  simp only [outputErrors, List.mem_map] at he
  obtain ⟨j, _, rfl⟩ := he
  refine npAverage_zero _ _ ?_
  intro x hx
  simp only [column, List.mem_map] at hx
  obtain ⟨r, hr, rfl⟩ := hx
  exact getD_zero r j (squaredErrors_self_rows_zero P r hr)

theorem aggregateQ_cast_nonneg (es : List ℚ) (mo : Multioutput)
    (hes : ∀ e ∈ es, 0 ≤ e)
    (hmo : ∀ ws, mo = Multioutput.weights ws → ∀ a ∈ ws, 0 ≤ a) :
    MetricValue.Nonneg
      (MetricValue.map (fun q => ((q : ℚ) : ℝ)) (aggregateQ es mo)) := by
  cases mo with
  | rawValues =>
      simp only [aggregateQ, MetricValue.map, MetricValue.Nonneg]
      intro x hx
      simp only [List.mem_map] at hx
      obtain ⟨e, he, rfl⟩ := hx
      exact_mod_cast hes e he
  | uniformAverage =>
      simp only [aggregateQ, MetricValue.map, MetricValue.Nonneg]
      exact_mod_cast npAverage_nonneg es none hes (fun ws h => by cases h)
  | weights ws =>
      simp only [aggregateQ, MetricValue.map, MetricValue.Nonneg]
      exact_mod_cast npAverage_nonneg es (some ws) hes
        (fun ws' h => by cases h; exact hmo ws rfl)

theorem aggregateQ_cast_zero (es : List ℚ) (mo : Multioutput)
    (hes : ∀ e ∈ es, e = 0) :
    MetricValue.IsZero
      (MetricValue.map (fun q => ((q : ℚ) : ℝ)) (aggregateQ es mo)) := by
  cases mo with
  | rawValues =>
      simp only [aggregateQ, MetricValue.map, MetricValue.IsZero]
      intro x hx
      simp only [List.mem_map] at hx
      obtain ⟨e, he, rfl⟩ := hx
      simp [hes e he]
  | uniformAverage =>
      simp [aggregateQ, MetricValue.map, MetricValue.IsZero,
        npAverage_zero es none hes]
  | weights ws =>
      simp [aggregateQ, MetricValue.map, MetricValue.IsZero,
        npAverage_zero es (some ws) hes]

theorem aggregateR_nonneg (es : List ℝ) (mo : Multioutput)
    (hes : ∀ e ∈ es, 0 ≤ e)
    (hmo : ∀ ws, mo = Multioutput.weights ws → ∀ a ∈ ws, 0 ≤ a) :
    MetricValue.Nonneg (aggregateR es mo) := by
  cases mo with
  | rawValues => exact hes
  | uniformAverage =>
      exact npAverageR_nonneg es none hes (fun ws h => by cases h)
  | weights ws =>
      exact npAverageR_nonneg es (some ws) hes
        (fun ws' h => by cases h; exact hmo ws rfl)

theorem aggregateR_zero (es : List ℝ) (mo : Multioutput)
    (hes : ∀ e ∈ es, e = 0) :
    MetricValue.IsZero (aggregateR es mo) := by
  cases mo with
  | rawValues => exact hes
  | uniformAverage => exact npAverageR_zero es none hes
  | weights ws => exact npAverageR_zero es (some ws) hes

theorem zipWith_sq_sum_eq_zero_iff (xs ys : List ℚ)
    (hlen : xs.length = ys.length) :
    (List.zipWith (fun a b => sq (a - b)) xs ys).sum = 0 ↔ xs = ys := by
  induction xs generalizing ys with
  | nil =>
      cases ys with
      | nil => simp
      | cons b u => simp at hlen
  | cons a t ih =>
      cases ys with
      | nil => simp at hlen
      | cons b u =>
          simp only [List.zipWith_cons_cons, List.sum_cons, List.cons.injEq]
          have hnn1 : 0 ≤ sq (a - b) := mul_self_nonneg _
          have hnn2 : 0 ≤ (List.zipWith (fun a b => sq (a - b)) t u).sum :=
            List.sum_nonneg (zipWith_sq_nonneg t u)
          rw [add_eq_zero_iff_of_nonneg hnn1 hnn2]
          have h1 : sq (a - b) = 0 ↔ a = b := by
            constructor
            · intro h
              simp only [sq] at h
              exact sub_eq_zero.mp (mul_self_eq_zero.mp h)
            · intro h
              simp [h, sq]
          rw [h1, ih u (by simpa using hlen)]

theorem score_true_result_nonroot (tag : String)
    (predictions references : Matrix) (sw : Option (List ℚ))
    (mo : Multioutput) (root : RootArg) (hr : rootBool root = false) :
    (score true tag predictions references sw mo root).result
      = Except.map (fun v => [(tag, v)])
          (Except.map (MetricValue.map (fun q => ((q : ℚ) : ℝ)))
            (mean_squared_error references predictions sw mo)) := by
  unfold score computeForRoot
  rw [hr]
  simp

theorem score_true_result_root (tag : String)
    (predictions references : Matrix) (sw : Option (List ℚ))
    (mo : Multioutput) (root : RootArg) (hr : rootBool root = true) :
    (score true tag predictions references sw mo root).result
      = Except.map (fun v => [(tag, v)])
          (root_mean_squared_error references predictions sw mo) := by
  unfold score computeForRoot
  rw [hr]
  simp

/-- C10: with non-negative sample weights and (in explicit-weights mode)
non-negative output weights, every value in a successful result — the
scalar score or each per-target entry — is non-negative, on every
computation path; when predictions equal references every returned value is
exactly 0; and under default settings the returned score is 0 exactly when
predictions equal references. -/
theorem C10_nonneg_and_best_value_zero (avail : Bool) (tag : String) :
    (∀ (predictions references : Matrix) (sw : Option (List ℚ))
        (mo : Multioutput) (root : RootArg) (l : List (String × MetricValue ℝ)),
      (∀ w, sw = some w → ∀ a ∈ w, 0 ≤ a) →
      (∀ ws, mo = Multioutput.weights ws → ∀ a ∈ ws, 0 ≤ a) →
      (score avail tag predictions references sw mo root).result = Except.ok l →
      ∀ p ∈ l, MetricValue.Nonneg p.2)
    ∧ (∀ (predictions : Matrix) (sw : Option (List ℚ)) (mo : Multioutput)
        (root : RootArg) (l : List (String × MetricValue ℝ)),
      (score avail tag predictions predictions sw mo root).result = Except.ok l →
      ∀ p ∈ l, MetricValue.IsZero p.2)
    ∧ (∀ (predictions references : List ℚ),
      validInput (scalarMatrix references) (scalarMatrix predictions) none
          Multioutput.uniformAverage = true →
      ((score avail tag (scalarMatrix predictions) (scalarMatrix references)
          none Multioutput.uniformAverage RootArg.deprecatedStr).result
        = Except.ok [(tag, MetricValue.scalar 0)] ↔ predictions = references)) := by
  refine ⟨?_, ?_, ?_⟩
  · intro P R sw mo root l hsw hmo h
    rw [score_avail_result] at h
    have hes := outputErrors_nonneg R P sw hsw
    cases hr : rootBool root with
    | false =>
        rw [score_true_result_nonroot tag P R sw mo root hr] at h
        cases e : mean_squared_error R P sw mo with
        | error s =>
            rw [e] at h
            simp [Except.map] at h
        | ok v =>
            rw [e] at h
            simp only [Except.map, Except.ok.injEq] at h
            intro p hp
            rw [← h] at hp
            simp only [List.mem_singleton] at hp
            subst hp
            have hv : v = aggregateQ (outputErrors R P sw) mo := by
              unfold mean_squared_error at e
              cases e2 : checkShapes R P sw mo with
              | error s => rw [e2] at e; simp at e
              | ok u =>
                  rw [e2] at e
                  simp only [Except.ok.injEq] at e
                  exact e.symm
            rw [hv]
            exact aggregateQ_cast_nonneg _ mo hes hmo
    | true =>
        rw [score_true_result_root tag P R sw mo root hr] at h
        cases e : root_mean_squared_error R P sw mo with
        | error s =>
            rw [e] at h
            simp [Except.map] at h
        | ok v =>
            rw [e] at h
            simp only [Except.map, Except.ok.injEq] at h
            intro p hp
            rw [← h] at hp
            simp only [List.mem_singleton] at hp
            subst hp
            have hv : v = aggregateR ((outputErrors R P sw).map
                (fun e => Real.sqrt ((e : ℚ) : ℝ))) mo := by
              unfold root_mean_squared_error at e
              cases e2 : checkShapes R P sw mo with
              | error s => rw [e2] at e; simp at e
              | ok u =>
                  rw [e2] at e
                  simp only [Except.ok.injEq] at e
                  exact e.symm
            rw [hv]
            refine aggregateR_nonneg _ mo ?_ hmo
            intro x hx
            simp only [List.mem_map] at hx
            obtain ⟨e', _, rfl⟩ := hx
            exact Real.sqrt_nonneg _
  · intro P sw mo root l h
    rw [score_avail_result] at h
    have hes := outputErrors_self_zero P sw
    cases hr : rootBool root with
    | false =>
        rw [score_true_result_nonroot tag P P sw mo root hr] at h
        cases e : mean_squared_error P P sw mo with
        | error s =>
            rw [e] at h
            simp [Except.map] at h
        | ok v =>
            rw [e] at h
            simp only [Except.map, Except.ok.injEq] at h
            intro p hp
            rw [← h] at hp
            simp only [List.mem_singleton] at hp
            subst hp
            have hv : v = aggregateQ (outputErrors P P sw) mo := by
              unfold mean_squared_error at e
              cases e2 : checkShapes P P sw mo with
              | error s => rw [e2] at e; simp at e
              | ok u =>
                  rw [e2] at e
                  simp only [Except.ok.injEq] at e
                  exact e.symm
            rw [hv]
            exact aggregateQ_cast_zero _ mo hes
    | true =>
        rw [score_true_result_root tag P P sw mo root hr] at h
        cases e : root_mean_squared_error P P sw mo with
        | error s =>
            rw [e] at h
            simp [Except.map] at h
        | ok v =>
            rw [e] at h
            simp only [Except.map, Except.ok.injEq] at h
            intro p hp
            rw [← h] at hp
            simp only [List.mem_singleton] at hp
            subst hp
            have hv : v = aggregateR ((outputErrors P P sw).map
                (fun e => Real.sqrt ((e : ℚ) : ℝ))) mo := by
              unfold root_mean_squared_error at e
              cases e2 : checkShapes P P sw mo with
              | error s => rw [e2] at e; simp at e
              | ok u =>
                  rw [e2] at e
                  simp only [Except.ok.injEq] at e
                  exact e.symm
            rw [hv]
            refine aggregateR_zero _ mo ?_
            intro x hx
            simp only [List.mem_map] at hx
            obtain ⟨e', he', rfl⟩ := hx
            simp [hes e' he']
  · intro predictions references hv
    have hb : validBase (scalarMatrix references) (scalarMatrix predictions)
        none = true := by
      simp only [validInput, Bool.and_eq_true] at hv
      exact hv.1
    simp only [validBase, Bool.and_eq_true, beq_iff_eq, bne_iff_ne, ne_eq,
      length_scalarMatrix] at hb
    obtain ⟨⟨⟨⟨hlen, _, _⟩, hne0⟩, _⟩, _⟩ := hb
    have hne : references ≠ [] := by
      intro h
      exact hne0 (by simp [h])
    rw [score_avail_result,
      score_nonroot_result tag _ _ none _ RootArg.deprecatedStr rfl hv,
      outputErrors_scalarMatrix references predictions none hne]
    simp only [aggregateQ, MetricValue.map, npAverage_singleton,
      Except.ok.injEq, List.cons.injEq, and_true, Prod.mk.injEq, true_and,
      MetricValue.scalar.injEq, Rat.cast_eq_zero]
    have hzl : (List.zipWith (fun a b => sq (a - b)) references
        predictions).length = references.length := by
      simp [List.length_zipWith, hlen]
    have hnz : ¬ ((List.zipWith (fun a b => sq (a - b)) references
        predictions).length : ℚ) = 0 := by
      rw [hzl]
      exact_mod_cast hne0
    rw [show npAverage (List.zipWith (fun a b => sq (a - b)) references
        predictions) none
      = (List.zipWith (fun a b => sq (a - b)) references predictions).sum
        / ((List.zipWith (fun a b => sq (a - b)) references
            predictions).length : ℚ) from rfl]
    rw [div_eq_zero_iff]
    simp only [hnz, or_false]
    rw [zipWith_sq_sum_eq_zero_iff references predictions hlen]
    exact eq_comm

/-- Witness for C10: equal predictions and references give score 0. -/
theorem C10_nonneg_and_best_value_zero_witness :
    (score true "mean_squared_error" (scalarMatrix [1, 2])
        (scalarMatrix [1, 2]) none Multioutput.uniformAverage
        RootArg.deprecatedStr).result
      = Except.ok [("mean_squared_error", MetricValue.scalar 0)] :=
  ((C10_nonneg_and_best_value_zero true "mean_squared_error").2.2 [1, 2] [1, 2]
    (by decide)).mpr rfl

end Molflux
